import Mathlib

/-!
# Verification of the data_pipeline producer against its specification

Shallow embedding of `src/data_pipeline/producer.py` and
`src/data_pipeline/tools/copy_table_to_blackhole_table.py`, together with
models (from the specification) of the serialization-strategy classes
`LoggingKafkaProducer` / `PooledKafkaProducer` whose source is not part of
this snapshot.
-/

namespace DataPipeline

/-! ## Pooled strategy: sequence-number reassembly (spec §4.3)

Modelled from the spec: the source of `PooledKafkaProducer`
(`data_pipeline/_pooled_kafka_producer.py`) is not in the snapshot; the
reassembly algorithm below follows spec §4.3 word for word.  Messages get
sequence numbers `0, 1, 2, ...` in `publish()` order; workers complete in an
arbitrary order; a single reassembly point appends completed results to the
Buffer strictly in ascending sequence order, holding early arrivals in the
Pending Serialization Slot set.  Serialization is deterministic, so a slot is
identified by its sequence number; the buffer records the sequence numbers in
append order. -/

structure ReasmState where
  next : Nat
  pending : List Nat
  buffer : List Nat
deriving Repr, DecidableEq

/-- One pass of step 3 of spec §4.3: while the next expected sequence
number's result is available among the pending slots, append it to the
Buffer and advance the expectation.  Each iteration consumes one pending
slot, so the number of pending slots bounds the iteration count; the loop
is written with that bound as explicit fuel to stay kernel-computable. -/
def drainGo : Nat → ReasmState → ReasmState
  | 0, st => st
  | fuel + 1, st =>
    if st.next ∈ st.pending then
      drainGo fuel ⟨st.next + 1, st.pending.erase st.next, st.buffer ++ [st.next]⟩
    else st

/-- The drain pass, run with enough fuel to reach the fixed point. -/
def drain (st : ReasmState) : ReasmState := drainGo st.pending.length st

/-- The reassembly point receives the completion of the worker handling
sequence number `s`: the result is held as a pending slot, then the drain
pass merges everything now ready into the Buffer in ascending order. -/
def receive (st : ReasmState) (s : Nat) : ReasmState :=
  drain { st with pending := s :: st.pending }

/-- Initial reassembly state: empty buffer, no pending slots, expecting
sequence number 0. -/
def initReasm : ReasmState := ⟨0, [], []⟩

/-- Run the reassembly point over a whole worker completion order. -/
def runPool (order : List Nat) : ReasmState :=
  order.foldl receive initReasm

/-- Reassembly invariant relative to the (ghost) predicate `D` describing
which sequence numbers' workers have completed so far: the buffer holds
exactly the initial segment below `next` in ascending order, and the
pending slots are exactly the completed sequence numbers at or above
`next`. -/
def Inv (D : Nat → Prop) (st : ReasmState) : Prop :=
  st.buffer = List.range st.next ∧
  st.pending.Nodup ∧
  (∀ s, s ∈ st.pending ↔ D s ∧ st.next ≤ s) ∧
  (∀ s, s < st.next → D s)

theorem Inv_congr {D D' : Nat → Prop} (h : ∀ t, D t ↔ D' t) {st : ReasmState}
    (hst : Inv D st) : Inv D' st := by
  obtain ⟨hb, hnd, hmem, hlow⟩ := hst
  exact ⟨hb, hnd, fun s => by rw [hmem s, h s], fun s hs => (h s).mp (hlow s hs)⟩

theorem drainGo_inv {D : Nat → Prop} :
    ∀ (fuel : Nat) (st : ReasmState), Inv D st → st.pending.length ≤ fuel →
      Inv D (drainGo fuel st) ∧ ¬ D (drainGo fuel st).next := by
  intro fuel
  induction fuel with
  | zero =>
    intro st hinv hlen
    have hnil : st.pending = [] := List.eq_nil_of_length_eq_zero (Nat.le_zero.mp hlen)
    refine ⟨hinv, fun hD => ?_⟩
    have := (hinv.2.2.1 st.next).mpr ⟨hD, Nat.le_refl _⟩
    simp [hnil] at this
  | succ fuel ih =>
    intro st hinv hlen
    obtain ⟨hb, hnd, hmem, hlow⟩ := hinv
    by_cases h : st.next ∈ st.pending
    · have hstep : drainGo (fuel + 1) st =
          drainGo fuel ⟨st.next + 1, st.pending.erase st.next, st.buffer ++ [st.next]⟩ := by
        simp [drainGo, h]
      rw [hstep]
      have hDnext : D st.next := ((hmem st.next).mp h).1
      have hinv' : Inv D ⟨st.next + 1, st.pending.erase st.next, st.buffer ++ [st.next]⟩ := by
        refine ⟨?_, hnd.erase _, ?_, ?_⟩
        · show st.buffer ++ [st.next] = List.range (st.next + 1)
          rw [hb, List.range_succ]
        · intro s
          show s ∈ st.pending.erase st.next ↔ D s ∧ st.next + 1 ≤ s
          rw [hnd.mem_erase_iff, hmem s]
          constructor
          · rintro ⟨hne, hD, hle⟩
            exact ⟨hD, Nat.lt_of_le_of_ne hle (fun he => hne he.symm)⟩
          · rintro ⟨hD, hlt⟩
            exact ⟨fun he => absurd (he ▸ hlt) (Nat.lt_irrefl _), hD, Nat.le_of_succ_le hlt⟩
        · intro s hs
          rcases Nat.lt_succ_iff_lt_or_eq.mp hs with hlt | heq
          · exact hlow s hlt
          · exact heq ▸ hDnext
      have hlen' : (st.pending.erase st.next).length ≤ fuel := by
        rw [List.length_erase_of_mem h]
        have hpos : 1 ≤ st.pending.length :=
          List.length_pos.mpr (List.ne_nil_of_mem h)
        omega
      exact ih _ hinv' hlen'
    · have hstep : drainGo (fuel + 1) st = st := by simp [drainGo, h]
      rw [hstep]
      refine ⟨⟨hb, hnd, hmem, hlow⟩, fun hD => ?_⟩
      exact h ((hmem st.next).mpr ⟨hD, Nat.le_refl _⟩)

theorem receive_inv {D : Nat → Prop} {st : ReasmState} (hinv : Inv D st)
    (_hnext : ¬ D st.next) {s : Nat} (hs : ¬ D s) :
    Inv (fun t => D t ∨ t = s) (receive st s) ∧
      ¬ (D (receive st s).next ∨ (receive st s).next = s) := by
  obtain ⟨hb, hnd, hmem, hlow⟩ := hinv
  have hsnp : s ∉ st.pending := fun hin => hs ((hmem s).mp hin).1
  have hles : st.next ≤ s := by
    by_contra hlt
    exact hs (hlow s (Nat.lt_of_not_le hlt))
  have hinv' : Inv (fun t => D t ∨ t = s) { st with pending := s :: st.pending } := by
    refine ⟨hb, List.nodup_cons.mpr ⟨hsnp, hnd⟩, ?_, ?_⟩
    · intro t
      show t ∈ s :: st.pending ↔ (D t ∨ t = s) ∧ st.next ≤ t
      rw [List.mem_cons, hmem t]
      constructor
      · rintro (rfl | ⟨hD, hle⟩)
        · exact ⟨Or.inr rfl, hles⟩
        · exact ⟨Or.inl hD, hle⟩
      · rintro ⟨hD | rfl, hle⟩
        · exact Or.inr ⟨hD, hle⟩
        · exact Or.inl rfl
    · intro t ht
      exact Or.inl (hlow t ht)
  have := drainGo_inv (D := fun t => D t ∨ t = s)
    ((s :: st.pending).length) { st with pending := s :: st.pending } hinv' (Nat.le_refl _)
  refine ⟨this.1, fun hor => this.2 hor⟩

theorem foldl_receive_inv :
    ∀ (order : List Nat) (D : Nat → Prop) (st : ReasmState),
      Inv D st → ¬ D st.next → order.Nodup → (∀ t ∈ order, ¬ D t) →
      Inv (fun t => D t ∨ t ∈ order) (order.foldl receive st) ∧
        ¬ (D (order.foldl receive st).next ∨ (order.foldl receive st).next ∈ order) := by
  intro order
  induction order with
  | nil =>
    intro D st hinv hnext _ _
    refine ⟨Inv_congr (fun t => by simp) hinv, ?_⟩
    simpa using hnext
  | cons s rest ih =>
    intro D st hinv hnext hnd hfresh
    have hsD : ¬ D s := hfresh s (List.mem_cons_self s rest)
    have hrec := receive_inv hinv hnext hsD
    have hnd' := List.nodup_cons.mp hnd
    have hfresh' : ∀ t ∈ rest, ¬ (D t ∨ t = s) := by
      rintro t ht (hD | rfl)
      · exact hfresh t (List.mem_cons_of_mem s ht) hD
      · exact hnd'.1 ht
    have hmain := ih (fun t => D t ∨ t = s) (receive st s) hrec.1 hrec.2 hnd'.2 hfresh'
    have hiff : ∀ t, ((D t ∨ t = s) ∨ t ∈ rest) ↔ (D t ∨ t ∈ s :: rest) := by
      intro t
      simp [List.mem_cons]
      tauto
    refine ⟨Inv_congr hiff hmain.1, fun hor => hmain.2 ?_⟩
    have := (hiff _).mpr hor
    tauto

/-- C1: Under the Pooled strategy, whatever order the workers complete in
(any permutation of the `n` dispatched sequence numbers), the reassembly
point ends with the Buffer holding exactly the sequence numbers
`0, 1, ..., n-1` in ascending order — the `publish()` call order — and no
slot left pending. -/
theorem pooled_reassembly_preserves_publish_order (n : Nat) (order : List Nat)
    (h : order.Perm (List.range n)) :
    (runPool order).buffer = List.range n ∧ (runPool order).pending = [] := by
  simp only [runPool]
  have hinv0 : Inv (fun _ => False) initReasm := by
    refine ⟨rfl, List.nodup_nil, ?_, ?_⟩
    · intro s
      constructor
      · intro hs
        exact absurd hs (List.not_mem_nil s)
      · rintro ⟨hf, -⟩
        exact hf.elim
    · intro s hs
      exact absurd hs (Nat.not_lt_zero s)
  have hnd : order.Nodup := h.nodup_iff.mpr (List.nodup_range n)
  have hmain := foldl_receive_inv order (fun _ => False) initReasm hinv0 id hnd
    (fun t _ => id)
  obtain ⟨⟨hb, _, hmem, hlow⟩, hne⟩ := hmain
  have hmemn : ∀ t, t ∈ order ↔ t < n := fun t => by rw [h.mem_iff, List.mem_range]
  have hnextmem : (order.foldl receive initReasm).next ∉ order := fun hin => hne (Or.inr hin)
  have hge : n ≤ (order.foldl receive initReasm).next := by
    by_contra hlt
    exact hnextmem ((hmemn _).mpr (Nat.lt_of_not_le hlt))
  have hle : (order.foldl receive initReasm).next ≤ n := by
    by_contra hgt
    have : n ∈ order ∨ False := by
      have := hlow n (Nat.lt_of_not_le hgt)
      tauto
    rcases this with hin | hf
    · exact absurd ((hmemn n).mp hin) (Nat.lt_irrefl n)
    · exact hf
  have hnexteq : (order.foldl receive initReasm).next = n := Nat.le_antisymm hle hge
  refine ⟨by rw [hb, hnexteq], ?_⟩
  rw [List.eq_nil_iff_forall_not_mem]
  intro s hs
  have := (hmem s).mp hs
  rcases this.1 with hf | hin
  · exact hf
  · have hlt := (hmemn s).mp hin
    have := this.2
    rw [hnexteq] at this
    omega

/-! ## Publisher Facade (`src/data_pipeline/producer.py`)

The `Producer` class keeps three pieces of state: the `use_work_pool` flag
set by `__init__`, the lazily constructed, `cached_property`-memoized
strategy object `_kafka_producer`, and the `position_data` attribute that
only `_notify_messages_published` ever sets.  The state is embedded
explicitly; a missing attribute is `none`. -/

/-- Position Data: per-stream next-offset map plus the opaque upstream
position blob (modelled from spec §3; `data_pipeline/position_data.py` is
not in the snapshot). -/
structure PositionData where
  topic_to_kafka_offset_map : List (String × Nat)
  last_published_message_position_info : Option String
deriving Repr, DecidableEq

/-- A message: target stream identifier plus an opaque payload (modelled
from spec §3; `data_pipeline/message.py` is not in the snapshot). -/
structure Message where
  topic : String
  payload : String
deriving Repr, DecidableEq

inductive KafkaProducerKind
  | pooled
  | logging
deriving Repr, DecidableEq

/-- State of the strategy object.  Its own source
(`_kafka_producer.py` / `_pooled_kafka_producer.py`) is not in the
snapshot, so it carries only what the facade's contract needs: which class
was constructed, how many `wake()` delegations it has received, and the
message buffer (spec §3) it accumulates. -/
structure KafkaProducerState where
  kind : KafkaProducerKind
  wakeCount : Nat
  message_buffer : List Message
deriving Repr, DecidableEq

/-- State of a `Producer` instance: its attributes, each `none` while the
attribute does not exist yet. -/
structure ProducerState where
  use_work_pool : Bool
  kafka_producer : Option KafkaProducerState
  position_data : Option PositionData
deriving Repr, DecidableEq

namespace Producer

/-- `Producer.__init__` (producer.py:75-78): stores only `use_work_pool`;
in particular it creates no position-data snapshot and no strategy. -/
def init (use_work_pool : Bool) : ProducerState :=
  { use_work_pool := use_work_pool, kafka_producer := none, position_data := none }

/-- `Producer()` with the default argument `use_work_pool=False`. -/
def initDefault : ProducerState := init false

/-- The strategy object freshly constructed by `Producer._kafka_producer`
(producer.py:68-73): `PooledKafkaProducer` when `use_work_pool` is set,
else `LoggingKafkaProducer`. -/
def newKafkaProducer (use_work_pool : Bool) : KafkaProducerState :=
  { kind := if use_work_pool then .pooled else .logging
    wakeCount := 0
    message_buffer := [] }

/-- `Producer._kafka_producer` (producer.py:68-73), a `cached_property`:
the first access constructs the strategy according to `use_work_pool` and
stores it; every later access returns the stored object unchanged. -/
def kafkaProducer (st : ProducerState) : KafkaProducerState × ProducerState :=
  match st.kafka_producer with
  | some k => (k, st)
  | none =>
    let k := newKafkaProducer st.use_work_pool
    (k, { st with kafka_producer := some k })

/-- Store an updated strategy object back into the producer's cache. -/
def setKafka (st : ProducerState) (k : KafkaProducerState) : ProducerState :=
  { st with kafka_producer := some k }

/-- `Producer.wake` (producer.py:177-203): delegates to the strategy's
`wake()`.  The strategy's flush-evaluation behaviour is not in the
snapshot; the delegation itself is recorded by the counter. -/
def wake (st : ProducerState) : ProducerState :=
  let (k, st') := kafkaProducer st
  setKafka st' { k with wakeCount := k.wakeCount + 1 }

/-- `Producer.__enter__` (producer.py:80-89): calls `self.wake()` once —
forcing the lazy strategy initialization — and returns `self`. -/
def enter (st : ProducerState) : ProducerState × ProducerState :=
  let st' := wake st
  (st', st')

/-- `Producer.publish` (producer.py:109-126): the whole body is
`self._kafka_producer.publish(message)` — the facade performs no
validation and hands the message to the strategy unchanged.  The strategy
side (serialize and buffer, spec §4.2/§4.3) is modelled from the spec as
an append to the strategy's message buffer. -/
def publish (st : ProducerState) (m : Message) : ProducerState :=
  let (k, st') := kafkaProducer st
  setKafka st' { k with message_buffer := k.message_buffer ++ [m] }

/-- `Producer._notify_messages_published` (producer.py:205-214): replaces
`self.position_data` with the acknowledged snapshot, wholesale. -/
def notifyMessagesPublished (st : ProducerState) (pd : PositionData) : ProducerState :=
  { st with position_data := some pd }

inductive PublishError
  | publishError
deriving Repr, DecidableEq

/-- `Producer.flush` (producer.py:149-153) delegates to the strategy's
`flush_buffered_messages`.  Modelled from the spec: the strategy's source
is not in the snapshot; per spec §4.1/§6 the flush sends the buffered
messages to the broker adapter `send`; on acknowledgment it notifies the
producer (which replaces the position data) and drains the buffer; on
`PublishError` the error propagates with buffer and position data left
untouched. -/
def flush (send : List Message → Except PublishError PositionData)
    (st : ProducerState) : ProducerState × Option PublishError :=
  match send (kafkaProducer st).1.message_buffer with
  | .ok pd =>
    (setKafka (notifyMessagesPublished (kafkaProducer st).2 pd)
      { (kafkaProducer st).1 with message_buffer := [] }, none)
  | .error e => (setKafka (kafkaProducer st).2 (kafkaProducer st).1, some e)

inductive AttrError
  | attributeError
deriving Repr, DecidableEq

/-- `Producer.get_checkpoint_position_data` (producer.py:168-175): returns
`self.position_data`.  That attribute is created only by
`_notify_messages_published`; before any notification the read fails like
any unset Python attribute. -/
def getCheckpointPositionData (st : ProducerState) : Except AttrError PositionData :=
  match st.position_data with
  | some pd => .ok pd
  | none => .error .attributeError

inductive NotImplError
  | notImplementedError
deriving Repr, DecidableEq

/-- `Producer.ensure_messages_published` (producer.py:128-147): the body is
`raise NotImplementedError`; nothing is published and no state changes. -/
def ensureMessagesPublished (st : ProducerState) (messages : List Message)
    (topic_offsets : List (String × Nat)) : ProducerState × Except NotImplError Unit :=
  (st, .error .notImplementedError)

inductive CloseError
  | assertionError
deriving Repr, DecidableEq

/-- `Producer.close` (producer.py:155-166): delegates to the strategy's
`close()` — whose source is not in the snapshot, so it is a parameter
acting on the strategy state and the count of active multiprocessing
children — then asserts `len(multiprocessing.active_children()) == 0`. -/
def close (strategyClose : KafkaProducerState × Nat → KafkaProducerState × Nat)
    (st : ProducerState) (activeChildren : Nat) :
    Except CloseError (ProducerState × Nat) :=
  let (k, st') := kafkaProducer st
  let (k', children') := strategyClose (k, activeChildren)
  if children' = 0 then .ok (setKafka st' k', children')
  else .error .assertionError

/-- What `Producer.__exit__` does with the exceptions in play. -/
structure ExitOutcome where
  raised : Option CloseError
  suppress : Bool
  loggedCloseFailure : Bool
deriving Repr, DecidableEq

/-- `Producer.__exit__` (producer.py:91-107): tries `self.close()`; if it
raises, logs the failure and re-raises it only when `exc_type is None`
(no caller exception in flight); always returns `False`, so the caller's
exception is never suppressed. -/
def exit (excInFlight : Bool) (closeResult : Option CloseError) : ExitOutcome :=
  match closeResult with
  | none => { raised := none, suppress := false, loggedCloseFailure := false }
  | some e =>
    if excInFlight then
      { raised := none, suppress := false, loggedCloseFailure := true }
    else
      { raised := some e, suppress := false, loggedCloseFailure := true }

end Producer

/-! ## Claim theorems about the Publisher Facade -/

/-- C1 (witness): a concrete run — four messages published, workers
completing in the order 2, 0, 3, 1 — ends with the Buffer holding
sequence numbers 0,1,2,3 in publish order and no pending slot. -/
theorem pooled_reassembly_preserves_publish_order_witness :
    (runPool [2, 0, 3, 1]).buffer = List.range 4 ∧
      (runPool [2, 0, 3, 1]).pending = [] :=
  pooled_reassembly_preserves_publish_order 4 [2, 0, 3, 1] (by decide)

/-- C2: a flush is atomic on Position Data: when the broker acknowledges,
the whole snapshot is replaced wholesale by the acknowledgment (every
stream's offset comes from the acknowledgment, none from the old
snapshot) and the buffer drains; when the broker fails, the position data
and the buffered messages are exactly unchanged. -/
theorem flush_updates_position_data_atomically
    (send : List Message → Except Producer.PublishError PositionData)
    (st : ProducerState) :
    (∀ pd, send (Producer.kafkaProducer st).1.message_buffer = .ok pd →
      (Producer.flush send st).1.position_data = some pd ∧
      (Producer.flush send st).1.kafka_producer =
        some { (Producer.kafkaProducer st).1 with message_buffer := [] }) ∧
    (∀ e, send (Producer.kafkaProducer st).1.message_buffer = .error e →
      (Producer.flush send st).2 = some e ∧
      (Producer.flush send st).1.position_data = st.position_data ∧
      (Producer.flush send st).1.kafka_producer =
        some (Producer.kafkaProducer st).1) := by
  have hpos : (Producer.kafkaProducer st).2.position_data = st.position_data := by
    unfold Producer.kafkaProducer
    cases h : st.kafka_producer <;> simp
  constructor
  · intro pd hok
    unfold Producer.flush
    rw [hok]
    simp [Producer.setKafka, Producer.notifyMessagesPublished]
  · intro e herr
    unfold Producer.flush
    rw [herr]
    simp [Producer.setKafka, hpos]

/-- C2 (witness): flushing one buffered message with a broker that
acknowledges offset 3 for stream "s" replaces the snapshot; the same
state flushed against a failing broker keeps its old (absent) snapshot
and its buffer. -/
theorem flush_updates_position_data_atomically_witness :
    ((Producer.flush (fun _ => .ok ⟨[("s", 3)], none⟩)
        (Producer.publish Producer.initDefault ⟨"s", "p"⟩)).1.position_data =
      some ⟨[("s", 3)], none⟩) ∧
    ((Producer.flush (fun _ => .error .publishError)
        (Producer.publish Producer.initDefault ⟨"s", "p"⟩)).1.position_data = none) ∧
    ((Producer.flush (fun _ => .error .publishError)
        (Producer.publish Producer.initDefault ⟨"s", "p"⟩)).1.kafka_producer =
      some ⟨.logging, 0, [⟨"s", "p"⟩]⟩) := by
  refine ⟨?_, ?_, ?_⟩
  · exact ((flush_updates_position_data_atomically (fun _ => .ok ⟨[("s", 3)], none⟩)
      (Producer.publish Producer.initDefault ⟨"s", "p"⟩)).1 ⟨[("s", 3)], none⟩ rfl).1
  · exact (((flush_updates_position_data_atomically (fun _ => .error .publishError)
      (Producer.publish Producer.initDefault ⟨"s", "p"⟩)).2 .publishError rfl).2).1
  · have := (((flush_updates_position_data_atomically (fun _ => .error .publishError)
      (Producer.publish Producer.initDefault ⟨"s", "p"⟩)).2 .publishError rfl).2).2
    rw [this]
    decide

/-- C3: `__exit__` never suppresses the caller's exception (it always
returns `False`); a close-time failure is logged, and is re-raised exactly
when no caller exception is in flight — so it never masks an in-flight
exception. -/
theorem exit_never_masks_caller_exception
    (excInFlight : Bool) (closeResult : Option Producer.CloseError) :
    (Producer.exit excInFlight closeResult).suppress = false ∧
    ((Producer.exit excInFlight closeResult).loggedCloseFailure = closeResult.isSome) ∧
    ((Producer.exit excInFlight closeResult).raised =
      if excInFlight then none else closeResult) := by
  cases closeResult <;> cases excInFlight <;> simp [Producer.exit]

/-- C4 (counterexample): on a freshly constructed `Producer()` no position
data snapshot exists — `__init__` creates none — so
`get_checkpoint_position_data()` fails with `AttributeError` instead of
returning an initial empty snapshot. -/
theorem getCheckpointPositionData_fails_on_fresh_producer :
    Producer.getCheckpointPositionData Producer.initDefault =
      .error .attributeError := rfl

/-- C4 (amended): `get_checkpoint_position_data` returns the latest
snapshot stored by `_notify_messages_published`; before any notification
— in particular on a freshly constructed producer — the attribute does
not exist and the read fails. -/
theorem getCheckpointPositionData_returns_latest_notified
    (st : ProducerState) (pd pd' : PositionData) (u : Bool) :
    Producer.getCheckpointPositionData (Producer.init u) = .error .attributeError ∧
    Producer.getCheckpointPositionData (Producer.notifyMessagesPublished st pd) = .ok pd ∧
    Producer.getCheckpointPositionData
      (Producer.notifyMessagesPublished (Producer.notifyMessagesPublished st pd') pd) =
        .ok pd := by
  exact ⟨rfl, rfl, rfl⟩

/-- C5 (counterexample): `publish` hands a message whose stream identifier
is the empty string to the strategy, which buffers it — the facade does
not reject it. -/
theorem publish_accepts_empty_stream_identifier :
    (Producer.publish Producer.initDefault ⟨"", "payload"⟩).kafka_producer =
      some ⟨.logging, 0, [⟨"", "payload"⟩]⟩ := by decide

/-- C5 (amended): the facade's `publish` performs no validation at all: it
hands every message — whatever its stream identifier — unchanged to the
strategy, which appends it to its buffer. -/
theorem publish_hands_message_to_strategy_unvalidated
    (st : ProducerState) (m : Message) :
    (Producer.publish st m).kafka_producer =
      some { (Producer.kafkaProducer st).1 with
        message_buffer := (Producer.kafkaProducer st).1.message_buffer ++ [m] } := by
  unfold Producer.publish Producer.setKafka
  rfl

/-- C6: `ensure_messages_published` raises `NotImplementedError` on every
input and leaves the producer state exactly as it was. -/
theorem ensureMessagesPublished_not_implemented
    (st : ProducerState) (messages : List Message)
    (topic_offsets : List (String × Nat)) :
    Producer.ensureMessagesPublished st messages topic_offsets =
      (st, .error .notImplementedError) := rfl

/-- C7: the `use_work_pool` flag selects the strategy class — `Pooled`
when true, `Logging` when false, false being the constructor default —
and `_kafka_producer` is memoized: once the cache holds a strategy, every
access returns that very object with the state untouched, the cache
always holds exactly what the accessor returned, and neither `wake` nor
`publish` ever replaces the strategy with one of another class. -/
theorem kafka_producer_selected_once_and_memoized
    (u : Bool) (st : ProducerState) (k : KafkaProducerState) (m : Message) :
    ((Producer.kafkaProducer (Producer.init u)).1.kind =
      if u then .pooled else .logging) ∧
    Producer.initDefault.use_work_pool = false ∧
    (st.kafka_producer = some k → Producer.kafkaProducer st = (k, st)) ∧
    ((Producer.kafkaProducer st).2.kafka_producer = some (Producer.kafkaProducer st).1) ∧
    ((Producer.kafkaProducer (Producer.wake st)).1.kind =
      (Producer.kafkaProducer st).1.kind) ∧
    ((Producer.kafkaProducer (Producer.publish st m)).1.kind =
      (Producer.kafkaProducer st).1.kind) := by
  refine ⟨?_, rfl, ?_, ?_, ?_, ?_⟩
  · cases u <;> rfl
  · intro h
    unfold Producer.kafkaProducer
    rw [h]
  · unfold Producer.kafkaProducer
    cases h : st.kafka_producer <;> simp [h]
  · unfold Producer.wake Producer.setKafka Producer.kafkaProducer
    cases h : st.kafka_producer <;> simp [h, Producer.newKafkaProducer]
  · unfold Producer.publish Producer.setKafka Producer.kafkaProducer
    cases h : st.kafka_producer <;> simp [h, Producer.newKafkaProducer]

/-- C7 (witness): concrete checks — a pooled producer's first access
builds the pooled strategy; a producer whose cache already holds a
strategy gets that object back unchanged. -/
theorem kafka_producer_selected_once_and_memoized_witness :
    (⟨true, some ⟨.pooled, 2, []⟩, none⟩ : ProducerState).kafka_producer =
        some ⟨.pooled, 2, []⟩ ∧
    Producer.kafkaProducer ⟨true, some ⟨.pooled, 2, []⟩, none⟩ =
      (⟨.pooled, 2, []⟩, ⟨true, some ⟨.pooled, 2, []⟩, none⟩) :=
  ⟨by decide,
    (kafka_producer_selected_once_and_memoized true
      ⟨true, some ⟨.pooled, 2, []⟩, none⟩ ⟨.pooled, 2, []⟩ ⟨"s", "p"⟩).2.2.1 (by decide)⟩

/-- C8: `__enter__` returns the producer itself, forces the lazy strategy
initialization, and delegates exactly one `wake()` to it before
returning: the strategy cache afterwards holds the (possibly
just-constructed) strategy with its wake counter advanced by exactly
one. -/
theorem enter_forces_init_and_wakes_once (st : ProducerState) :
    (Producer.enter st).2 = (Producer.enter st).1 ∧
    (Producer.enter st).1.kafka_producer =
      some { (Producer.kafkaProducer st).1 with
        wakeCount := (Producer.kafkaProducer st).1.wakeCount + 1 } := by
  refine ⟨rfl, ?_⟩
  unfold Producer.enter Producer.wake Producer.setKafka
  rfl

/-- C9: `close()` delegates to the strategy's close and then asserts that
no multiprocessing children remain: whatever the strategy's close does,
a normal return implies zero active children, and if the strategy close
leaves a worker running the assert makes `close()` fail instead of
returning. -/
theorem close_asserts_no_active_children
    (strategyClose : KafkaProducerState × Nat → KafkaProducerState × Nat)
    (st : ProducerState) (activeChildren : Nat) :
    (∀ res, Producer.close strategyClose st activeChildren = .ok res → res.2 = 0) ∧
    ((strategyClose ((Producer.kafkaProducer st).1, activeChildren)).2 ≠ 0 →
      Producer.close strategyClose st activeChildren = .error .assertionError) := by
  constructor
  · intro res hres
    unfold Producer.close at hres
    by_cases h : (strategyClose ((Producer.kafkaProducer st).1, activeChildren)).2 = 0
    · simp [h] at hres
      rw [← hres]
    · simp [h] at hres
  · intro h
    unfold Producer.close
    simp [h]

/-- C9 (witness): with a strategy close that leaves no children, close
returns normally with zero children reported; with one that leaves a
worker running, close fails with the assertion. -/
theorem close_asserts_no_active_children_witness :
    (Producer.close (fun p => (p.1, 0)) Producer.initDefault 0 =
      .ok (⟨false, some ⟨.logging, 0, []⟩, none⟩, 0)) ∧
    (Producer.close (fun p => (p.1, 1)) Producer.initDefault 0 =
      .error .assertionError) :=
  ⟨rfl,
    (close_asserts_no_active_children (fun p => (p.1, 1))
      Producer.initDefault 0).2 (by decide)⟩

/-! ## FullRefreshRunner
(`src/data_pipeline/tools/copy_table_to_blackhole_table.py`)

Only the control flow of `run` and the cleanup query of `final_action`
matter here; database effects are abstracted to which methods get
attempted and whether they raise. -/

namespace FullRefreshRunner

/-- The temporary refresh table name built in `_init_global_state`
(copy_table_to_blackhole_table.py:121-123). -/
def temp_table (table_name : String) : String :=
  table_name ++ "_data_pipeline_refresh"

/-- The cleanup query that `final_action`
(copy_table_to_blackhole_table.py:273-281) executes. -/
def final_action_query (table_name : String) : String :=
  "DROP TABLE IF EXISTS " ++ temp_table table_name

/-- The four method calls `run` makes, in source order. -/
inductive Step
  | initialAction
  | processTable
  | logInfo
  | finalAction
deriving Repr, DecidableEq

/-- The `try` block of `run`: `initial_action(); process_table();
log_info()` — each step is attempted only if the previous one returned
normally, and the first exception aborts the block. Returns the steps
attempted and the propagating exception, if any. -/
def tryBody {ε : Type} (initRes procRes logRes : Except ε Unit) :
    List Step × Option ε :=
  match initRes with
  | .error e => ([.initialAction], some e)
  | .ok _ =>
    match procRes with
    | .error e => ([.initialAction, .processTable], some e)
    | .ok _ =>
      match logRes with
      | .error e => ([.initialAction, .processTable, .logInfo], some e)
      | .ok _ => ([.initialAction, .processTable, .logInfo], none)

/-- `FullRefreshRunner.run` (copy_table_to_blackhole_table.py:344-350):
the three-step body wrapped in `try ... finally: self.final_action()`,
so the cleanup is attempted after the body on every exit path and any
body exception still propagates afterwards. -/
def run {ε : Type} (initRes procRes logRes : Except ε Unit) :
    List Step × Option ε :=
  ((tryBody initRes procRes logRes).1 ++ [.finalAction],
    (tryBody initRes procRes logRes).2)

/-- C10: whatever each of `initial_action`, `process_table` and `log_info`
does — return normally or raise — `run` attempts `final_action` as its
last step before finishing, without swallowing the body's exception; and
`final_action`'s query drops the temporary refresh table
`<table>_data_pipeline_refresh` with `DROP TABLE IF EXISTS`. -/
theorem run_always_attempts_final_action {ε : Type}
    (initRes procRes logRes : Except ε Unit) (table_name : String) :
    Step.finalAction ∈ (run initRes procRes logRes).1 ∧
    (run initRes procRes logRes).1.getLast? = some Step.finalAction ∧
    (run initRes procRes logRes).2 = (tryBody initRes procRes logRes).2 ∧
    final_action_query table_name =
      "DROP TABLE IF EXISTS " ++ table_name ++ "_data_pipeline_refresh" := by
  refine ⟨?_, ?_, rfl, rfl⟩
  · exact List.mem_append_right _ (List.mem_singleton_self _)
  · exact List.getLast?_concat _

end FullRefreshRunner

end DataPipeline
